import Mathlib

/-!
# Shallow embedding of the shardpack storage engine

This file embeds, in Lean 4, the parts of the `shardpack` repository that the
verified claims are about:

* `src/src/shard/writer.rs` — `ShardWriter` and its `write` method;
* `src/src/bucket.rs` — `Bucket::write / read / delete / get_metadata`,
  the `CompressionType` enum and the gzip/lz4 codec glue;
* `src/src/index/bucket.rs` — `IndexEntry`, `BucketIndex`, `BucketIndex::build`
  and the (stub) `process_shard`;
* `src/src/storage.rs` — the `LocalStorageProvider`, modelled as an in-memory
  map from path strings to byte lists (paths are plain strings; `fs::write`
  creates or overwrites, `fs::read` / `fs::remove_file` fail when the path is
  absent, `fs::read_dir` fails when the directory does not exist).

Machine integers (`usize`) are modelled as `Nat`.  Rust's debug builds abort on
unsigned underflow/overflow ("attempt to subtract with overflow"); we model
that abort with a distinguished `Outcome.crash` value where the source performs
an unchecked `usize` subtraction that can underflow (`bucket.rs` lines 103 and
114).  Fallible Rust code (`Result<T, Error>`) is modelled with `Except Err`.

Bytes are `Nat`s (the claims never depend on the range `< 256`).
-/

/-- Byte strings, as in `Vec<u8>` / `&[u8]`. -/
abbrev Bytes := List Nat

/-- The error enum of `src/src/error.rs` (variants `Io`, `Storage`, `Index`,
`Serialization`; the `Serialization` variant never occurs in the embedded
code paths, so it is omitted). -/
inductive Err where
  | io : String → Err
  | storage : String → Err
  | indexError : String → Err
deriving DecidableEq

/-- Result of a Rust call that can also abort the process: `ok` / `err` mirror
`Result`, while `crash` models a debug-build arithmetic abort. -/
inductive Outcome (α : Type) where
  | ok : α → Outcome α
  | err : Err → Outcome α
  | crash : String → Outcome α
deriving DecidableEq

/-- `CompressionType` from `src/src/bucket.rs` lines 16-25. -/
inductive CompressionType where
  | none
  | gzip
  | lz4
  | zstd
  | snappy
deriving DecidableEq

/-- Modelled from the spec: `shard_size()` lives in `src/shard/config.rs`,
which is absent from the provided sources; the spec (§6) fixes the maximum
shard size at its default of 256 MiB, matching the `SHARD_SIZE` constant of
the legacy `src/src/shard.rs`. -/
def shard_size : Nat := 256 * 1024 * 1024

/-- Modelled from the spec: the checksum is an opaque strong digest
(SHA-256 via the external `sha2` crate in the source; spec §1 puts the
algorithm's internals out of scope).  An executable rolling hash stands in;
no claim depends on the digest's value, only on it being carried around. -/
def compute_checksum (d : Bytes) : Nat :=
  d.foldl (fun h b => (h * 257 + b + 1) % (2 ^ 256)) 0

/-- `verify_checksum` from `src/src/checksum.rs`: recompute and compare,
failing with `Error::Storage("Checksum mismatch")`. -/
def verify_checksum (d : Bytes) (expected : Nat) : Except Err Unit :=
  if compute_checksum d = expected then .ok ()
  else .error (.storage "Checksum mismatch")

/-- Modelled from the spec: gzip codec internals live in the external
`flate2` crate (spec §1: codec internals out of scope, only the selection
contract matters).  An injective tagging encoder stands in; `compress_gzip`
in the source returns `Result` and is total on byte slices. -/
def compress_gzip (d : Bytes) : Except Err Bytes := .ok (31 :: 139 :: d)

/-- Modelled from the spec: inverse of the gzip stand-in; fails on input the
encoder cannot have produced, as `flate2` decoding does. -/
def decompress_gzip (d : Bytes) : Except Err Bytes :=
  match d with
  | 31 :: 139 :: rest => .ok rest
  | _ => .error (.storage "corrupt gzip stream")

/-- Modelled from the spec: lz4 codec internals live in the external
`lz4_flex` crate; an injective tagging encoder stands in. -/
def compress_lz4 (d : Bytes) : Except Err Bytes := .ok (4 :: 34 :: d)

/-- Modelled from the spec: inverse of the lz4 stand-in. -/
def decompress_lz4 (d : Bytes) : Except Err Bytes :=
  match d with
  | 4 :: 34 :: rest => .ok rest
  | _ => .error (.storage "corrupt lz4 block")

/-- `IndexEntry` from `src/src/index/bucket.rs` lines 33-57. -/
structure IndexEntry where
  shard_id : Nat
  offset : Nat
  size : Nat
  checksum : Nat
deriving DecidableEq

/-- `BucketIndex` from `src/src/index/bucket.rs` lines 19-23.  The Rust
`HashMap`s are modelled as association lists over their keys. -/
structure BucketIndex where
  entries : List (String × List IndexEntry)
  metadata : List (String × Bytes)
deriving DecidableEq

/-- `HashMap::get`. -/
def alist_get {α : Type} (l : List (String × α)) (k : String) : Option α :=
  (l.find? (fun kv => kv.1 == k)).map (·.2)

/-- `HashMap::insert` (overwrite semantics). -/
def alist_insert {α : Type} (l : List (String × α)) (k : String) (v : α) :
    List (String × α) :=
  (k, v) :: l.filter (fun kv => !(kv.1 == k))

/-- `HashMap::remove` (the removed value, when needed, is read via
`alist_get` first). -/
def alist_remove {α : Type} (l : List (String × α)) (k : String) :
    List (String × α) :=
  l.filter (fun kv => !(kv.1 == k))

/-- The in-memory image of the `LocalStorageProvider` backend
(`src/src/storage.rs`): a map from path strings to stored byte strings. -/
structure Store where
  objects : List (String × Bytes)
deriving DecidableEq

/-- `StorageProvider::read` for the local backend: `fs::read`, failing when
the path is absent. -/
def provider_read (st : Store) (p : String) : Except Err Bytes :=
  match alist_get st.objects p with
  | some d => .ok d
  | none => .error (.io "No such file or directory")

/-- `StorageProvider::write` for the local backend: `fs::write` creates or
overwrites the object and (with auto-created parent directories) always
succeeds. -/
def provider_write (st : Store) (p : String) (d : Bytes) : Store :=
  ⟨alist_insert st.objects p d⟩

/-- `StorageProvider::delete` for the local backend: `fs::remove_file`,
failing when the path is absent. -/
def provider_delete (st : Store) (p : String) : Except Err Store :=
  match alist_get st.objects p with
  | some _ => .ok ⟨alist_remove st.objects p⟩
  | none => .error (.io "No such file or directory")

/-- `StorageProvider::list` for the local backend: the entries of the
bucket's directory (paths reported relative to the root, so they keep the
bucket prefix).  `fs::read_dir` fails when the directory does not exist,
i.e. when nothing was ever written under it. -/
def provider_list (st : Store) (pre : String) : Except Err (List String) :=
  let files := (st.objects.map (·.1)).filter
    (fun p => (pre ++ "/").data.isPrefixOf p.data)
  if files.isEmpty then .error (.io "No such file or directory") else .ok files

/-- The abstract `StorageProvider` a `ShardWriter<W>` is generic over;
`ShardWriter::write` only ever calls `provider.write`. -/
structure SProvider (π : Type) where
  write : π → String → Bytes → Except Err π

/-- `ShardWriter` state (`src/src/shard/writer.rs` lines 16-29).  The
`ByteCounter` id is only ever consumed through `to_string`, so it is kept as
the path string it produces. -/
structure ShardWriterState (π : Type) where
  id : String
  provider : π
  current_size : Nat
  entries : List IndexEntry

/-- `ShardWriter::new` (`writer.rs` lines 60-67). -/
def shardWriterNew {π : Type} (id : String) (p : π) : ShardWriterState π :=
  ⟨id, p, 0, []⟩

/-- `data_len` as computed at the top of `ShardWriter::write`
(`writer.rs` lines 87-90): data length plus metadata length when present. -/
def data_len_of (data : Bytes) (metadata : Option Bytes) : Nat :=
  data.length + (match metadata with | some m => m.length | Option.none => 0)

/-- The error `ShardWriter::write` raises when the record does not fit
(`writer.rs` line 93). -/
def shardCapacityErr : Err := .storage "Shard size limit exceeded"

/-- `ShardWriter::write` (`src/src/shard/writer.rs` lines 86-122), with the
mutated writer returned alongside the `Result`:
capacity check, checksum, entry construction, one provider write for the
data, an optional second provider write for the metadata, and only then the
entry append and `current_size` advance. -/
def shardWriterWrite {π : Type} (P : SProvider π) (w : ShardWriterState π)
    (key : String) (data : Bytes) (metadata : Option Bytes) :
    ShardWriterState π × Except Err Unit :=
  let data_len := data_len_of data metadata
  if w.current_size + data_len > shard_size then
    (w, .error shardCapacityErr)
  else
    let checksum := compute_checksum data
    let offset := w.current_size
    let entry : IndexEntry := ⟨w.entries.length, offset, data_len, checksum⟩
    match P.write w.provider w.id data with
    | .error e => (w, .error e)
    | .ok p1 =>
      match metadata with
      | some meta =>
        match P.write p1 w.id meta with
        | .error e => ({ w with provider := p1 }, .error e)
        | .ok p2 =>
          ({ w with provider := p2,
                    entries := w.entries ++ [entry],
                    current_size := w.current_size + data_len }, .ok ())
      | Option.none =>
        ({ w with provider := p1,
                  entries := w.entries ++ [entry],
                  current_size := w.current_size + data_len }, .ok ())

/-- Iterated `ShardWriter::write`: fold a list of `(key, data, metadata)`
operations over the writer, keeping the mutated writer whether each call
succeeds or fails (as `&mut self` does). -/
def runWrites {π : Type} (P : SProvider π) (w : ShardWriterState π) :
    List (String × Bytes × Option Bytes) → ShardWriterState π
  | [] => w
  | op :: rest => runWrites P (shardWriterWrite P w op.1 op.2.1 op.2.2).1 rest

/-- Sum of the `size` fields of a list of entries. -/
def sumSizes : List IndexEntry → Nat
  | [] => 0
  | e :: rest => e.size + sumSizes rest

/-- The entries describe back-to-back placements starting at `off`: each
entry's `offset` is the running total of the sizes before it.  This is how
"offset equal to `current_size` before its write" is visible in the final
state. -/
def contiguousFrom : Nat → List IndexEntry → Bool
  | _, [] => true
  | off, e :: rest => (e.offset == off) && contiguousFrom (off + e.size) rest

/-- `BucketConfig` from `src/src/bucket.rs` lines 60-71. -/
structure BucketConfig where
  compression : CompressionType
  parallelism : Nat
deriving DecidableEq

/-- `Bucket` state (`src/src/bucket.rs` lines 73-79).  The `RwLock` around
the index is dropped (the embedding is sequential); `shards: Vec<Shard<P>>`
is kept as a list of units because `bucket.rs` only ever reads its length
and pushes fresh `Shard::new()` values whose fields it never touches. -/
structure BucketState where
  name : String
  index : BucketIndex
  shards : List Unit
  config : BucketConfig
deriving DecidableEq

/-- `Bucket::new` (`bucket.rs` lines 83-91): empty index, no shards. -/
def bucketNew (name : String) (config : BucketConfig) : BucketState :=
  ⟨name, ⟨[], []⟩, [], config⟩

/-- `Bucket::get_shard_path` (`bucket.rs` lines 197-199):
`<name>/shard_<id as {:016x}>`. -/
def get_shard_path (name : String) (shard_id : Nat) : String :=
  let ds := Nat.toDigits 16 shard_id
  name ++ "/shard_" ++ String.mk (List.replicate (16 - ds.length) '0' ++ ds)

/-- The compression dispatch of `Bucket::write` (`bucket.rs` lines 133-138):
`None`/`Gzip`/`Lz4` are wired, everything else is
`Error::Storage("Unsupported compression")`. -/
def compress_for (c : CompressionType) (data : Bytes) : Except Err Bytes :=
  match c with
  | .none => .ok data
  | .gzip => compress_gzip data
  | .lz4 => compress_lz4 data
  | _ => .error (.storage "Unsupported compression")

/-- The decompression dispatch of `Bucket::read` (`bucket.rs` lines
159-164). -/
def decompress_for (c : CompressionType) (chunk : Bytes) : Except Err Bytes :=
  match c with
  | .none => .ok chunk
  | .gzip => decompress_gzip chunk
  | .lz4 => decompress_lz4 chunk
  | _ => .error (.storage "Unsupported compression")

/-- Everything `Bucket::write` leaves behind: the mutated bucket, the
backend store, the `IndexEntry` the source constructs at `bucket.rs` line
125 (and then drops on the floor — exposed here so claims can talk about
it; `entry = none` when control never reached line 125), and the call's
outcome. -/
structure WriteOut where
  bucket : BucketState
  store : Store
  entry : Option IndexEntry
  result : Outcome Unit

/-- `Bucket::write` (`src/src/bucket.rs` lines 93-147), step for step:

1. `current_shards = self.shards.len()` (line 95);
2. if it is zero, push a fresh shard (lines 97-101);
3. `last_shard_idx = current_shards - 1` (line 103) — an unchecked `usize`
   subtraction of the length captured *before* the push, so a fresh bucket
   underflows here (debug builds abort: `Outcome.crash`);
4. `provider.read(last_shard_path)` to measure `current_size` (lines
   107-110), propagating the provider error;
5. `available_space = shard_size() - current_size` (line 114) — a second
   unchecked subtraction, crashing when the object outgrew the capacity;
6. roll to a new shard when `available_space < data.len()` (lines 115-122);
7. build the `IndexEntry` (lines 125-130) — never stored anywhere;
8. compress per config (lines 133-138), erroring on `Zstd`/`Snappy`;
9. `provider.write(&last_shard_path, compressed)` (line 141) — note the
   path of step 3, even when step 6 allocated a new shard;
10. the metadata insertion is commented out in the source (lines 143-145),
    so `metadata` is accepted and ignored. -/
def bucketWrite (b : BucketState) (st : Store) (key : String) (data : Bytes)
    (metadata : Option Bytes) : WriteOut :=
  let current_shards := b.shards.length
  let b1 := if current_shards == 0 then { b with shards := b.shards ++ [()] } else b
  if current_shards == 0 then
    { bucket := b1, store := st, entry := Option.none,
      result := .crash "attempt to subtract with overflow" }
  else
    let last_shard_idx := current_shards - 1
    let last_shard_path := get_shard_path b1.name last_shard_idx
    match provider_read st last_shard_path with
    | .error e => { bucket := b1, store := st, entry := Option.none, result := .err e }
    | .ok file =>
      let current_size := file.length
      if shard_size < current_size then
        { bucket := b1, store := st, entry := Option.none,
          result := .crash "attempt to subtract with overflow" }
      else
        let available_space := shard_size - current_size
        let roll := available_space < data.length
        let b2 := if roll then { b1 with shards := b1.shards ++ [()] } else b1
        let shard_id := if roll then current_shards else last_shard_idx
        let offset := if roll then 0 else current_size
        let index_entry : IndexEntry :=
          ⟨shard_id, offset, data.length, compute_checksum data⟩
        match compress_for b2.config.compression data with
        | .error e =>
          { bucket := b2, store := st, entry := some index_entry, result := .err e }
        | .ok compressed =>
          { bucket := b2, store := provider_write st last_shard_path compressed,
            entry := some index_entry, result := .ok () }

/-- The per-entry loop of `Bucket::read` (`bucket.rs` lines 154-168):
fetch the whole shard object, decompress it per config, verify the
checksum, and extend the accumulator. -/
def readEntries (b : BucketState) (st : Store) :
    List IndexEntry → Bytes → Except Err Bytes
  | [], acc => .ok acc
  | entry :: rest, acc =>
    match provider_read st (get_shard_path b.name entry.shard_id) with
    | .error e => .error e
    | .ok chunk =>
      match decompress_for b.config.compression chunk with
      | .error e => .error e
      | .ok dec =>
        match verify_checksum dec entry.checksum with
        | .error e => .error e
        | .ok _ => readEntries b st rest (acc ++ dec)

/-- `Bucket::read` (`src/src/bucket.rs` lines 149-171): look the key up in
`index.entries`, failing with `Error::Storage("Key not found")` when
absent, then run the per-entry loop. -/
def bucketRead (b : BucketState) (st : Store) (key : String) : Except Err Bytes :=
  match alist_get b.index.entries key with
  | Option.none => .error (.storage "Key not found")
  | some entries => readEntries b st entries []

/-- The provider-delete loop of `Bucket::delete` (`bucket.rs` lines
176-181): delete each referenced shard path, returning early (with the
store mutated so far) on the first provider failure. -/
def deleteShards (name : String) : Store → List IndexEntry → Store × Option Err
  | st, [] => (st, Option.none)
  | st, e :: rest =>
    match provider_delete st (get_shard_path name e.shard_id) with
    | .error err => (st, some err)
    | .ok st' => deleteShards name st' rest

/-- `Bucket::delete` (`src/src/bucket.rs` lines 173-185): remove
`entries[key]` if present and delete each referenced shard path (early
return on a provider failure, skipping the metadata removal); then remove
`metadata[key]` unconditionally. -/
def bucketDelete (b : BucketState) (st : Store) (key : String) :
    (BucketState × Store) × Except Err Unit :=
  match alist_get b.index.entries key with
  | some entries =>
    let b1 := { b with index := { b.index with
                  entries := alist_remove b.index.entries key } }
    match deleteShards b.name st entries with
    | (st', some e) => ((b1, st'), .error e)
    | (st', Option.none) =>
      (({ b1 with index := { b1.index with
            metadata := alist_remove b1.index.metadata key } }, st'), .ok ())
  | Option.none =>
    (({ b with index := { b.index with
          metadata := alist_remove b.index.metadata key } }, st), .ok ())

/-- `Bucket::get_metadata` (`src/src/bucket.rs` lines 187-190). -/
def get_metadata (b : BucketState) (key : String) : Except Err (Option Bytes) :=
  .ok (alist_get b.index.metadata key)

/-- `BucketIndex::process_shard` (`src/src/index/bucket.rs` lines 129-133),
faithfully: the body is a stub that updates nothing and returns `Ok(())`,
its comments notwithstanding. -/
def process_shard (idx : BucketIndex) (data : Bytes) : Except Err BucketIndex :=
  .ok idx

/-- The per-file loop of `BucketIndex::build`: read each listed file and
feed it to `process_shard`, aborting the whole build on the first error
(the `collect::<Result<_>>` at `index/bucket.rs` lines 107-110). -/
def buildLoop (st : Store) : List String → BucketIndex → Except Err BucketIndex
  | [], idx => .ok idx
  | f :: rest, idx =>
    match provider_read st f with
    | .error e => .error e
    | .ok data =>
      match process_shard idx data with
      | .error e => .error e
      | .ok idx' => buildLoop st rest idx'

/-- `BucketIndex::build` (`src/src/index/bucket.rs` lines 85-117): list the
bucket's files and process each one into a fresh default index.  The
source fans the loop out over `parallelism` concurrent fetches merging into
one mutex-guarded accumulator; since every iteration either fails the whole
build or (via the stub `process_shard`) leaves the accumulator untouched,
the sequential model is faithful up to the (unspecified) merge order. -/
def bucketIndexBuild (st : Store) (bucket : String) (parallelism : Nat) :
    Except Err BucketIndex :=
  match provider_list st bucket with
  | .error e => .error e
  | .ok files => buildLoop st files ⟨[], []⟩

/-- Concrete fixture: a bucket named "b" that already owns one shard
(reachable in the source only after a first, failed or aborted, write has
pushed it), with an empty index and the given compression. -/
def exBucket (c : CompressionType) : BucketState :=
  ⟨"b", ⟨[], []⟩, [()], ⟨c, 1⟩⟩

/-- Concrete fixture: a backend store holding an empty object at shard 0's
path, so that `Bucket::write`'s size probe succeeds. -/
def exStore : Store := ⟨[(get_shard_path "b" 0, [])]⟩

/-- Concrete fixture: a backend store whose shard-0 object is exactly at
the 256 MiB capacity, forcing `Bucket::write` to roll to a new shard. -/
def fullStore : Store := ⟨[(get_shard_path "b" 0, List.replicate shard_size 0)]⟩

/-- Concrete fixture: a bucket whose index already holds one entry and one
metadata blob under key "k" (the state the spec's write path would have
produced), for exercising `delete`. -/
def exIdxBucket : BucketState :=
  ⟨"b", ⟨[("k", [⟨0, 0, 3, compute_checksum [1, 2, 3]⟩])], [("k", [5])]⟩,
   [()], ⟨.none, 1⟩⟩

/-- The in-memory local backend packaged as the abstract provider a
`ShardWriter` is generic over (its `write` never fails, like
`LocalStorageProvider::write`). -/
def storeSProvider : SProvider Store :=
  ⟨fun st p d => .ok (provider_write st p d)⟩

/-- The state invariant `ShardWriter::write` maintains: the byte cursor
stays within capacity, equals the total of the recorded sizes, and the
recorded entries sit back to back, each within capacity. -/
def writerInv {π : Type} (w : ShardWriterState π) : Prop :=
  w.current_size ≤ shard_size ∧
  w.current_size = sumSizes w.entries ∧
  contiguousFrom 0 w.entries = true ∧
  w.entries.all (fun e => decide (e.offset + e.size ≤ shard_size)) = true

deriving instance DecidableEq for Except

/-- Concrete fixture: a bucket configured with the unwired `Zstd` codec
whose index already maps "k" to one entry in shard 0. -/
def zBucket : BucketState :=
  ⟨"b", ⟨[("k", [⟨0, 0, 1, 77⟩])], []⟩, [()], ⟨.zstd, 1⟩⟩

/-- `Result::is_ok`, for phrasing "the provider call returned success"
without naming the value it returned. -/
def isOkE {α : Type} : Except Err α → Bool
  | .ok _ => true
  | .error _ => false

/-! ## Helper lemmas -/

theorem alist_get_remove_self {α : Type} (l : List (String × α)) (k : String) :
    alist_get (alist_remove l k) k = Option.none := by
  induction l with
  | nil => rfl
  | cons kv rest ih =>
    by_cases hk : (kv.1 == k) = true
    · simpa [alist_remove, List.filter, hk] using ih
    · rw [Bool.not_eq_true] at hk
      simp only [alist_remove, List.filter, hk, Bool.not_false] at ih ⊢
      simpa [alist_get, List.find?, hk] using ih

theorem sumSizes_append (l : List IndexEntry) (e : IndexEntry) :
    sumSizes (l ++ [e]) = sumSizes l + e.size := by
  induction l with
  | nil => simp [sumSizes]
  | cons x rest ih => simp [sumSizes, ih, Nat.add_assoc]

theorem contiguousFrom_append (l : List IndexEntry) (off : Nat) (e : IndexEntry)
    (hl : contiguousFrom off l = true) (he : e.offset = off + sumSizes l) :
    contiguousFrom off (l ++ [e]) = true := by
  induction l generalizing off with
  | nil =>
    simp [contiguousFrom, sumSizes] at he ⊢
    exact he
  | cons x rest ih =>
    simp only [contiguousFrom, Bool.and_eq_true, beq_iff_eq] at hl
    simp only [List.cons_append, contiguousFrom, Bool.and_eq_true, beq_iff_eq]
    refine ⟨hl.1, ih _ hl.2 ?_⟩
    rw [he]
    simp [sumSizes]
    omega

/-- Either `ShardWriter::write` left `entries` and `current_size` untouched,
or the record fit and both advanced exactly as the source's success path
writes them. -/
theorem shardWriterWrite_cases (π : Type) (P : SProvider π)
    (w : ShardWriterState π) (key : String) (data : Bytes)
    (metadata : Option Bytes) :
    ((shardWriterWrite P w key data metadata).1.entries = w.entries ∧
     (shardWriterWrite P w key data metadata).1.current_size = w.current_size) ∨
    (w.current_size + data_len_of data metadata ≤ shard_size ∧
     (shardWriterWrite P w key data metadata).1.entries =
       w.entries ++ [⟨w.entries.length, w.current_size,
         data_len_of data metadata, compute_checksum data⟩] ∧
     (shardWriterWrite P w key data metadata).1.current_size =
       w.current_size + data_len_of data metadata) := by
  unfold shardWriterWrite
  by_cases hc : w.current_size + data_len_of data metadata > shard_size
  · left; simp [hc]
  · cases hw : P.write w.provider w.id data with
    | error e => left; simp [if_neg hc, hw]
    | ok p1 =>
      cases metadata with
      | none =>
        right
        refine ⟨Nat.le_of_not_lt hc, ?_, ?_⟩ <;> simp [if_neg hc, hw]
      | some m =>
        cases hw2 : P.write p1 w.id m with
        | error e2 => left; simp [if_neg hc, hw, hw2]
        | ok p2 =>
          right
          refine ⟨Nat.le_of_not_lt hc, ?_, ?_⟩ <;> simp [if_neg hc, hw, hw2]

/-- One `ShardWriter::write` call preserves the writer invariant. -/
theorem writerInv_write (π : Type) (P : SProvider π) (w : ShardWriterState π)
    (key : String) (data : Bytes) (metadata : Option Bytes)
    (h : writerInv w) : writerInv (shardWriterWrite P w key data metadata).1 := by
  obtain ⟨h1, h2, h3, h4⟩ := h
  unfold writerInv
  rcases shardWriterWrite_cases π P w key data metadata with
    ⟨he, hcs⟩ | ⟨hfit, he, hcs⟩
  · rw [he, hcs]; exact ⟨h1, h2, h3, h4⟩
  · refine ⟨?_, ?_, ?_, ?_⟩
    · rw [hcs]; exact hfit
    · rw [hcs, he, sumSizes_append]; simp [h2]
    · rw [he]
      exact contiguousFrom_append _ _ _ h3 (by simpa using h2)
    · rw [he]
      simp only [List.all_append, Bool.and_eq_true]
      exact ⟨h4, by simp [hfit]⟩

/-- Any sequence of `ShardWriter::write` calls preserves the writer
invariant. -/
theorem writerInv_runWrites (π : Type) (P : SProvider π) (w : ShardWriterState π)
    (ops : List (String × Bytes × Option Bytes)) (h : writerInv w) :
    writerInv (runWrites P w ops) := by
  induction ops generalizing w with
  | nil => exact h
  | cons op rest ih =>
    exact ih _ (writerInv_write π P w op.1 op.2.1 op.2.2 h)

/-- `Bucket::write` against a bucket whose active shard object is exactly
at capacity: the write succeeds, the entry records the freshly allocated
shard id 1, yet the bytes land at shard 0's path (shard 1's path stays
empty), because line 141 of `bucket.rs` reuses `last_shard_path`. -/
theorem bucketWrite_full_shard (blob : Bytes) (hlen : blob.length = shard_size) :
    (bucketWrite (exBucket .none) ⟨[(get_shard_path "b" 0, blob)]⟩ "k" [7]
        Option.none).result = .ok () ∧
    (bucketWrite (exBucket .none) ⟨[(get_shard_path "b" 0, blob)]⟩ "k" [7]
        Option.none).entry = some ⟨1, 0, 1, compute_checksum [7]⟩ ∧
    alist_get (bucketWrite (exBucket .none) ⟨[(get_shard_path "b" 0, blob)]⟩ "k"
        [7] Option.none).store.objects (get_shard_path "b" 1) = Option.none ∧
    alist_get (bucketWrite (exBucket .none) ⟨[(get_shard_path "b" 0, blob)]⟩ "k"
        [7] Option.none).store.objects (get_shard_path "b" 0) = some [7] := by
  have hsp : (get_shard_path "b" 0 == get_shard_path "b" 1) = false := by decide
  refine ⟨?_, ?_, ?_, ?_⟩ <;>
    simp [bucketWrite, exBucket, provider_read, provider_write, alist_get,
      alist_insert, compress_for, hlen, hsp, Nat.sub_self, List.find?,
      List.filter]

/-! ## Claim theorems -/

/-- C1: the spec's round-trip property fails on the code.  `Bucket::write`
never records the `IndexEntry` it builds into `index.entries` (and never
stores metadata), so after a *successful* `write("k", [1,2,3], None)` —
under each wired compression algorithm (`None`, `Gzip`, `Lz4`) — `read("k")`
fails with `Storage("Key not found")` instead of returning the bytes. -/
theorem write_not_indexed_read_fails_ex :
    ((bucketWrite (exBucket .none) exStore "k" [1, 2, 3] Option.none).result = .ok () ∧
     bucketRead (bucketWrite (exBucket .none) exStore "k" [1, 2, 3] Option.none).bucket
       (bucketWrite (exBucket .none) exStore "k" [1, 2, 3] Option.none).store "k" =
       .error (.storage "Key not found")) ∧
    ((bucketWrite (exBucket .gzip) exStore "k" [1, 2, 3] Option.none).result = .ok () ∧
     bucketRead (bucketWrite (exBucket .gzip) exStore "k" [1, 2, 3] Option.none).bucket
       (bucketWrite (exBucket .gzip) exStore "k" [1, 2, 3] Option.none).store "k" =
       .error (.storage "Key not found")) ∧
    ((bucketWrite (exBucket .lz4) exStore "k" [1, 2, 3] Option.none).result = .ok () ∧
     bucketRead (bucketWrite (exBucket .lz4) exStore "k" [1, 2, 3] Option.none).bucket
       (bucketWrite (exBucket .lz4) exStore "k" [1, 2, 3] Option.none).store "k" =
       .error (.storage "Key not found")) := by
  decide

/-- C2: the spec's rebuild equivalence fails on the code.
`BucketIndex::process_shard` is a no-op stub, so after a successful write
of key "k", `BucketIndex::build` over the bucket's files succeeds with the
*empty* index, under which `read("k")` fails with `Key not found` instead
of returning the originally written bytes. -/
theorem rebuild_yields_empty_index_ex :
    (bucketWrite (exBucket .none) exStore "k" [1, 2] Option.none).result = .ok () ∧
    bucketIndexBuild (bucketWrite (exBucket .none) exStore "k" [1, 2] Option.none).store
      "b" 1 = .ok ⟨[], []⟩ ∧
    bucketRead { exBucket .none with index := ⟨[], []⟩ }
      (bucketWrite (exBucket .none) exStore "k" [1, 2] Option.none).store "k" =
      .error (.storage "Key not found") := by
  decide

/-- C3: the spec's metadata overwrite fails on the code.  The
`metadata` insertion in `Bucket::write` is commented out (`bucket.rs` lines
143-145), so after a *successful* `write("k", [1], Some([9]))`,
`get_metadata("k")` returns `None` rather than `Some([9])`. -/
theorem write_drops_metadata_ex :
    (bucketWrite (exBucket .none) exStore "k" [1] (some [9])).result = .ok () ∧
    get_metadata (bucketWrite (exBucket .none) exStore "k" [1] (some [9])).bucket "k" =
      .ok Option.none := by
  decide

/-- C4: `ShardWriter::write` fails with the shard-capacity error exactly
when `current_size + data_len > shard_size()` where `data_len` counts the
metadata when present; when the inequality does not hold no capacity error
is raised (assuming the backend provider does not itself produce that same
error value, which the in-memory backend never does). -/
theorem shardwriter_capacity_error_iff (π : Type) (P : SProvider π)
    (hP : ∀ p path d, P.write p path d ≠ .error shardCapacityErr)
    (w : ShardWriterState π) (key : String) (data : Bytes)
    (metadata : Option Bytes) :
    (shardWriterWrite P w key data metadata).2 = .error shardCapacityErr ↔
      w.current_size + data_len_of data metadata > shard_size := by
  unfold shardWriterWrite
  by_cases h : w.current_size + data_len_of data metadata > shard_size
  · simp [h]
  · simp only [if_neg h]
    constructor
    · intro hres
      exfalso
      cases hw : P.write w.provider w.id data with
      | error e =>
        simp only [hw] at hres
        exact hP _ _ _ (Except.error.inj hres ▸ hw)
      | ok p1 =>
        simp only [hw] at hres
        cases metadata with
        | none => simp at hres
        | some m =>
          cases hw2 : P.write p1 w.id m with
          | error e2 =>
            simp only [hw2] at hres
            exact hP _ _ _ (Except.error.inj hres ▸ hw2)
          | ok p2 =>
            simp only [hw2] at hres
            simp at hres
    · intro hgt; exact absurd hgt h

/-- C4 witness: the capacity equivalence instantiated at the in-memory
backend, a fresh writer and a two-byte record. -/
theorem shardwriter_capacity_error_iff_witness :
    ((shardWriterWrite storeSProvider (shardWriterNew "s" (⟨[]⟩ : Store)) "k"
        [1, 2] Option.none).2 = .error shardCapacityErr ↔
      (shardWriterNew "s" (⟨[]⟩ : Store)).current_size +
        data_len_of [1, 2] Option.none > shard_size) :=
  shardwriter_capacity_error_iff Store storeSProvider
    (fun _ _ _ h => Except.noConfusion h)
    (shardWriterNew "s" ⟨[]⟩) "k" [1, 2] Option.none

/-- C5: `ShardWriter::write` records the entry and advances `current_size`
only on success — and then exactly once, with the offset taken before the
write and after the first provider call succeeded; on any error (capacity
or provider failure) `entries` and `current_size` are unchanged. -/
theorem shardwriter_no_partial_index (π : Type) (P : SProvider π)
    (w : ShardWriterState π) (key : String) (data : Bytes)
    (metadata : Option Bytes) :
    ((shardWriterWrite P w key data metadata).2 = .ok () →
      (shardWriterWrite P w key data metadata).1.entries =
        w.entries ++ [⟨w.entries.length, w.current_size,
          data_len_of data metadata, compute_checksum data⟩] ∧
      (shardWriterWrite P w key data metadata).1.current_size =
        w.current_size + data_len_of data metadata ∧
      isOkE (P.write w.provider w.id data) = true) ∧
    (∀ e, (shardWriterWrite P w key data metadata).2 = .error e →
      (shardWriterWrite P w key data metadata).1.entries = w.entries ∧
      (shardWriterWrite P w key data metadata).1.current_size =
        w.current_size) := by
  unfold shardWriterWrite
  by_cases h : w.current_size + data_len_of data metadata > shard_size
  · simp [h]
  · simp only [if_neg h]
    cases hw : P.write w.provider w.id data with
    | error e => simp [hw, isOkE]
    | ok p1 =>
      cases metadata with
      | none => simp [hw, isOkE]
      | some m =>
        cases hw2 : P.write p1 w.id m with
        | error e2 => simp [hw, hw2, isOkE]
        | ok p2 => simp [hw, hw2, isOkE]

/-- C5 witness: a successful two-byte write against the in-memory backend
appends exactly one entry at offset 0 and advances the size by two. -/
theorem shardwriter_no_partial_index_witness :
    (shardWriterWrite storeSProvider (shardWriterNew "s" (⟨[]⟩ : Store)) "k"
        [1, 2] Option.none).1.entries =
      (shardWriterNew "s" (⟨[]⟩ : Store)).entries ++
        [⟨(shardWriterNew "s" (⟨[]⟩ : Store)).entries.length,
          (shardWriterNew "s" (⟨[]⟩ : Store)).current_size,
          data_len_of [1, 2] Option.none, compute_checksum [1, 2]⟩] ∧
    (shardWriterWrite storeSProvider (shardWriterNew "s" (⟨[]⟩ : Store)) "k"
        [1, 2] Option.none).1.current_size =
      (shardWriterNew "s" (⟨[]⟩ : Store)).current_size +
        data_len_of [1, 2] Option.none ∧
    isOkE (storeSProvider.write (shardWriterNew "s" (⟨[]⟩ : Store)).provider
        (shardWriterNew "s" (⟨[]⟩ : Store)).id [1, 2]) = true :=
  (shardwriter_no_partial_index Store storeSProvider
    (shardWriterNew "s" ⟨[]⟩) "k" [1, 2] Option.none).1 (by decide)

/-- C6: starting from a fresh writer, after any sequence of
`ShardWriter::write` calls (successful or failed) the cursor stays within
`shard_size()`, it equals the total of the recorded sizes, the recorded
entries sit back to back from offset 0 (so each entry's offset is the
cursor value before its write), and every entry satisfies
`offset + size ≤ shard_size()`. -/
theorem shardwriter_capacity_invariant (π : Type) (P : SProvider π)
    (id : String) (p : π) (ops : List (String × Bytes × Option Bytes)) :
    (runWrites P (shardWriterNew id p) ops).current_size ≤ shard_size ∧
    (runWrites P (shardWriterNew id p) ops).current_size =
      sumSizes (runWrites P (shardWriterNew id p) ops).entries ∧
    contiguousFrom 0 (runWrites P (shardWriterNew id p) ops).entries = true ∧
    (runWrites P (shardWriterNew id p) ops).entries.all
      (fun e => decide (e.offset + e.size ≤ shard_size)) = true := by
  have h0 : writerInv (shardWriterNew id p) := by
    refine ⟨?_, rfl, rfl, rfl⟩
    exact Nat.zero_le _
  exact writerInv_runWrites π P _ ops h0

/-- C7: the roll-to-a-new-shard path of `Bucket::write` is broken.  With
shard 0 exactly full, writing one byte succeeds and its `IndexEntry`
records the freshly allocated shard id 1 — but the bytes are persisted to
shard 0's backend path (overwriting it), and shard 1's path holds nothing,
because `bucket.rs` line 141 writes to `last_shard_path`. -/
theorem write_rolls_but_persists_to_stale_path_ex :
    (bucketWrite (exBucket .none) fullStore "k" [7] Option.none).result = .ok () ∧
    (bucketWrite (exBucket .none) fullStore "k" [7] Option.none).entry =
      some ⟨1, 0, 1, compute_checksum [7]⟩ ∧
    alist_get (bucketWrite (exBucket .none) fullStore "k" [7]
      Option.none).store.objects (get_shard_path "b" 1) = Option.none ∧
    alist_get (bucketWrite (exBucket .none) fullStore "k" [7]
      Option.none).store.objects (get_shard_path "b" 0) = some [7] := by
  have h := bucketWrite_full_shard (List.replicate shard_size 0)
    (List.length_replicate _ _)
  simpa [fullStore] using h

/-- C8 counterexample: on a fresh (shard-less) bucket configured with
`Zstd`, `Bucket::write` aborts on the `current_shards - 1` underflow before
ever reaching the compression check, so it does *not* fail with
`Unsupported compression` as the claim states for every bucket. -/
theorem zstd_fresh_write_not_unsupported_ex :
    (bucketWrite (bucketNew "z" ⟨.zstd, 1⟩) ⟨[]⟩ "k" [1] Option.none).result =
      .crash "attempt to subtract with overflow" ∧
    (bucketWrite (bucketNew "z" ⟨.zstd, 1⟩) ⟨[]⟩ "k" [1] Option.none).result ≠
      .err (.storage "Unsupported compression") := by
  decide

/-- C8 (amended): for a bucket that already owns a shard, whose active
shard object the provider can read at a size within capacity, writing under
`Zstd` or `Snappy` fails with `Storage("Unsupported compression")` and
leaves the backend store untouched (no shard object written); and reading a
key with a nonempty entry list whose first shard object is readable fails
with the same error. -/
theorem unsupported_compression_rejected (b : BucketState) (st : Store)
    (key : String) (data : Bytes) (metadata : Option Bytes) (file : Bytes)
    (hc : b.config.compression = .zstd ∨ b.config.compression = .snappy)
    (hs : b.shards ≠ [])
    (hr : provider_read st (get_shard_path b.name (b.shards.length - 1)) = .ok file)
    (hlen : file.length ≤ shard_size) :
    ((bucketWrite b st key data metadata).result =
        .err (.storage "Unsupported compression") ∧
     (bucketWrite b st key data metadata).store = st) ∧
    (∀ e0 rest chunk, alist_get b.index.entries key = some (e0 :: rest) →
        provider_read st (get_shard_path b.name e0.shard_id) = .ok chunk →
        bucketRead b st key = .error (.storage "Unsupported compression")) := by
  constructor
  · have hbeq : (b.shards.length == 0) = false := by
      simp only [beq_eq_false_iff_ne, ne_eq, List.length_eq_zero]
      exact hs
    have hnlt : ¬ (shard_size < file.length) := Nat.not_lt.mpr hlen
    by_cases hroll : shard_size - file.length < data.length <;>
      rcases hc with h | h <;>
        (unfold bucketWrite; simp [hbeq, hr, hnlt, hroll, compress_for, h])
  · intro e0 rest chunk hget hchunk
    rcases hc with h | h <;>
      simp [bucketRead, hget, readEntries, hchunk, decompress_for, h]

/-- C8 witness: the amended statement instantiated at a one-shard `Zstd`
bucket whose index maps "k" to a shard-0 entry. -/
theorem unsupported_compression_rejected_witness :
    ((bucketWrite zBucket exStore "k" [1] Option.none).result =
        .err (.storage "Unsupported compression") ∧
     (bucketWrite zBucket exStore "k" [1] Option.none).store = exStore) ∧
    bucketRead zBucket exStore "k" =
      .error (.storage "Unsupported compression") := by
  have h := unsupported_compression_rejected zBucket exStore "k" [1] Option.none []
    (Or.inl rfl) (by decide) (by decide) (by decide)
  exact ⟨h.1, h.2 ⟨0, 0, 1, 77⟩ [] [] rfl rfl⟩

/-- C9: after a successful `Bucket::delete(k)`, `read(k)` fails with
`Key not found` and `get_metadata(k)` returns `None`; the key's entry list
and metadata are gone from the index, the referenced shard paths were each
deleted through the provider (when the key had entries), and the store is
untouched when it had none. -/
theorem delete_completeness (b : BucketState) (st : Store) (key : String)
    (b' : BucketState) (st' : Store)
    (h : bucketDelete b st key = ((b', st'), .ok ())) :
    bucketRead b' st' key = .error (.storage "Key not found") ∧
    get_metadata b' key = .ok Option.none ∧
    alist_get b'.index.entries key = Option.none ∧
    (∀ es, alist_get b.index.entries key = some es →
        deleteShards b.name st es = (st', Option.none)) ∧
    (alist_get b.index.entries key = Option.none → st' = st) := by
  unfold bucketDelete at h
  cases hg : alist_get b.index.entries key with
  | none =>
    simp only [hg, Prod.mk.injEq] at h
    obtain ⟨⟨hb, hst⟩, -⟩ := h
    subst hb hst
    refine ⟨?_, ?_, ?_, ?_, ?_⟩
    · simp [bucketRead, hg]
    · simp [get_metadata, alist_get_remove_self]
    · simpa using hg
    · intro es hes; exact absurd hes (by simp)
    · intro _; rfl
  | some es =>
    simp only [hg] at h
    cases hds : deleteShards b.name st es with
    | mk st2 oerr =>
      rw [hds] at h
      cases oerr with
      | some e =>
        simp only [Prod.mk.injEq] at h
        exact Except.noConfusion h.2
      | none =>
        simp only [Prod.mk.injEq] at h
        obtain ⟨⟨hb, hst⟩, -⟩ := h
        subst hb hst
        refine ⟨?_, ?_, ?_, ?_, ?_⟩
        · simp [bucketRead, alist_get_remove_self]
        · simp [get_metadata, alist_get_remove_self]
        · simp [alist_get_remove_self]
        · intro es' hes'
          cases Option.some.inj hes'
          exact hds
        · intro hnone; exact absurd hnone (by simp)

/-- C9 witness: deleting "k" from a bucket holding one entry and one
metadata blob for it, over a store that contains the referenced shard. -/
theorem delete_completeness_witness :
    bucketRead (bucketDelete exIdxBucket exStore "k").1.1
      (bucketDelete exIdxBucket exStore "k").1.2 "k" =
      .error (.storage "Key not found") ∧
    get_metadata (bucketDelete exIdxBucket exStore "k").1.1 "k" =
      .ok Option.none ∧
    alist_get (bucketDelete exIdxBucket exStore "k").1.1.index.entries "k" =
      Option.none ∧
    deleteShards "b" exStore [⟨0, 0, 3, compute_checksum [1, 2, 3]⟩] =
      ((bucketDelete exIdxBucket exStore "k").1.2, Option.none) := by
  have h := delete_completeness exIdxBucket exStore "k"
    (bucketDelete exIdxBucket exStore "k").1.1
    (bucketDelete exIdxBucket exStore "k").1.2 (by decide)
  exact ⟨h.1, h.2.1, h.2.2.1, h.2.2.2.1 _ rfl⟩

/-- C10: on a bucket whose shard list is empty, `Bucket::write` computes
`current_shards - 1` with `current_shards = 0` — an unsigned underflow that
aborts before any backend write is attempted (the store is returned
untouched), so a first write can never allocate shard 0 and succeed. -/
theorem first_write_underflow (b : BucketState) (st : Store) (key : String)
    (data : Bytes) (metadata : Option Bytes) (h : b.shards = []) :
    (bucketWrite b st key data metadata).result =
      .crash "attempt to subtract with overflow" ∧
    (bucketWrite b st key data metadata).store = st := by
  simp [bucketWrite, h]

/-- C10 witness: the underflow at a concrete fresh bucket over an empty
backend. -/
theorem first_write_underflow_witness :
    (bucketWrite (bucketNew "b" ⟨.none, 1⟩) ⟨[]⟩ "k" [1] Option.none).result =
      .crash "attempt to subtract with overflow" ∧
    (bucketWrite (bucketNew "b" ⟨.none, 1⟩) ⟨[]⟩ "k" [1] Option.none).store =
      ⟨[]⟩ :=
  first_write_underflow (bucketNew "b" ⟨.none, 1⟩) ⟨[]⟩ "k" [1] Option.none rfl
